import Mathlib

/-!
Verification of the two arcade games in this repository:
`time_runners_game.py` (Time Runners: Paradox Shift) and `shadow_tag.py`
(Shadow Tag).  Python numbers are modelled as exact rationals, machine
counters as `Nat`;  drawing, sound and other purely presentational state
(colors, trails, particles, animation frames, milestone text) is omitted,
as it never feeds back into the modelled fields.  Calls into `random` and
wall-clock time are modelled as oracle parameters.
-/

namespace TimeRunners

/-! ### Constants of `time_runners_game.py` -/

def SCREEN_WIDTH : ℚ := 800
def SCREEN_HEIGHT : ℚ := 600
def FPS : ℕ := 60
def GRAVITY : ℚ := 1
def JUMP_STRENGTH : ℚ := -15
def OBSTACLE_SPEED : ℚ := 5
def TIMELINE_HEIGHT : ℚ := SCREEN_HEIGHT / 2
def DELAY_FRAMES : ℕ := 2 * FPS
def SLOW_MO_DISTANCE : ℚ := 150
def SLOW_MO_FACTOR : ℚ := 1/2

/-! ### The input-replay buffer (`collections.deque` with a `maxlen`)

`Game.reset` creates `action_history = deque(maxlen=DELAY_FRAMES + 1)` and
pre-fills it with `DELAY_FRAMES + 1` times `False`.  Each frame,
`Game.handle_events` appends the sampled jump input and reads
`action_history[0]`. -/

/-- `deque.append` for a deque with `maxlen = m`: when the deque is full,
appending drops the leftmost element. -/
def dequeAppend (m : ℕ) (buf : List Bool) (v : Bool) : List Bool :=
  if buf.length < m then buf ++ [v] else (buf.drop (buf.length + 1 - m)) ++ [v]

/-- The buffer as created by `Game.reset`: `DELAY_FRAMES + 1` copies of `False`. -/
def initHistory : List Bool := List.replicate (DELAY_FRAMES + 1) false

/-- Contents of `action_history` after the first `k` frames, where frame `i`
(`0`-indexed) appends the sampled input `u i`. -/
def historyAfter (u : ℕ → Bool) : ℕ → List Bool
  | 0 => initHistory
  | k + 1 => dequeAppend (DELAY_FRAMES + 1) (historyAfter u k) (u k)

/-- The value `action_history[0]` read on frame `k`, after that frame's input
has been appended (`Game.handle_events`). -/
def delayedAction (u : ℕ → Bool) (k : ℕ) : Bool :=
  (historyAfter u (k + 1)).headD false

/-- A capacity-`m` run of the buffer mechanism on a finite input list:
append each input in turn, record the front element after each append, and
return the list of outputs together with the final buffer contents. -/
def runBuf (m : ℕ) : List Bool → List Bool → List Bool × List Bool
  | buf, [] => ([], buf)
  | buf, v :: rest =>
    let b := dequeAppend m buf v
    let out := runBuf m b rest
    ((b.headD false) :: out.1, out.2)

/-! ### Runners (class `Runner`)

Kinematic fields only; `color`, `animation_frame`, `animation_speed` and
`trail_positions` are presentational and never feed back into the position,
velocity or jump state. -/

structure Runner where
  x : ℚ
  y : ℚ
  width : ℚ := 20
  height : ℚ := 40
  vel_y : ℚ := 0
  is_jumping : Bool := false
  is_alive : Bool := true
deriving DecidableEq

/-- `Runner.jump`: a grounded runner receives the impulse `JUMP_STRENGTH`. -/
def Runner.jump (r : Runner) : Runner :=
  if r.is_jumping then r else { r with vel_y := JUMP_STRENGTH, is_jumping := true }

/-- `Runner.update(ground_y, time_factor)`: gravity scaled by the time factor,
position advanced by the scaled velocity, then the ground-collision clamp. -/
def Runner.update (ground_y time_factor : ℚ) (r : Runner) : Runner :=
  if ground_y < (r.y + (r.vel_y + GRAVITY * time_factor) * time_factor) + r.height then
    { r with y := ground_y - r.height, vel_y := 0, is_jumping := false }
  else
    { r with
        y := r.y + (r.vel_y + GRAVITY * time_factor) * time_factor
        vel_y := r.vel_y + GRAVITY * time_factor }

/-- Cumulative vertical offset from the launch height after `k` ticks of an
unclamped jump at `time_factor = 1`: the velocities `-15 + 1, …, -15 + k`
summed up. -/
def jumpOffset (k : ℕ) : ℚ := (k * (k + 1)) / 2 - 15 * k

/-! ### Obstacles and rectangle collision -/

structure Obstacle where
  x : ℚ
  y : ℚ
  width : ℚ
  height : ℚ
deriving DecidableEq

/-- `Obstacle.update(speed_factor)`: scroll left by the scaled speed. -/
def Obstacle.update (speed_factor : ℚ) (o : Obstacle) : Obstacle :=
  { o with x := o.x - OBSTACLE_SPEED * speed_factor }

structure Rect where
  x : ℚ
  y : ℚ
  w : ℚ
  h : ℚ
deriving DecidableEq

/-- `Runner.get_rect`: the runner's bounding box. -/
def Runner.get_rect (r : Runner) : Rect := ⟨r.x, r.y, r.width, r.height⟩

/-- `Obstacle.get_rect`: the obstacle's collision box, extended 10 px upward
for the spikes (`y - 10`, `height + 10`). -/
def Obstacle.get_rect (o : Obstacle) : Rect := ⟨o.x, o.y - 10, o.width, o.height + 10⟩

/-- `pygame.Rect.colliderect`: strict overlap on both axes. -/
def colliderect (a b : Rect) : Bool :=
  decide (a.x < b.x + b.w) && decide (b.x < a.x + a.w) &&
    decide (a.y < b.y + b.h) && decide (b.y < a.y + a.h)

/-- Axis-aligned boxes given directly by position, width and height
overlapping (the spec's notion of overlapping bounding boxes). -/
def boxOverlap (x1 y1 w1 h1 x2 y2 w2 h2 : ℚ) : Prop :=
  x1 < x2 + w2 ∧ x2 < x1 + w1 ∧ y1 < y2 + h2 ∧ y2 < y1 + h1

/-! ### Slow motion (`Game.check_slow_motion`) -/

/-- The distances computed in the loops of `check_slow_motion`: for every
obstacle strictly ahead of the runner, `obstacle.x - (runner.x + runner.width)`. -/
def aheadDistances (r : Runner) (obs : List Obstacle) : List ℚ :=
  (obs.filter (fun o => decide (r.x < o.x))).map (fun o => o.x - (r.x + r.width))

/-- Minimum of a list of rationals, `none` for the empty list (the code's
`float('inf')` start value). -/
def minD : List ℚ → Option ℚ
  | [] => none
  | d :: rest =>
    match minD rest with
    | none => some d
    | some m => some (min d m)

/-- `Game.check_slow_motion`, returning `(slow_mo_active, time_factor)`. -/
def check_slow_motion (pres past : List Obstacle) (pr pa : Runner) : Bool × ℚ :=
  match minD (aheadDistances pr pres ++ aheadDistances pa past) with
  | none => (false, 1)
  | some m =>
    if m < SLOW_MO_DISTANCE then
      (true, SLOW_MO_FACTOR + (1 - SLOW_MO_FACTOR) * (m / SLOW_MO_DISTANCE))
    else (false, 1)

/-- Some obstacle ahead of one of the runners is within `SLOW_MO_DISTANCE`. -/
def nearHazard (pres past : List Obstacle) (pr pa : Runner) : Prop :=
  (∃ o ∈ pres, pr.x < o.x ∧ o.x - (pr.x + pr.width) < SLOW_MO_DISTANCE) ∨
  (∃ o ∈ past, pa.x < o.x ∧ o.x - (pa.x + pa.width) < SLOW_MO_DISTANCE)

/-! ### The per-tick game update (`Game.update`)

Particles and milestone messages are presentational and omitted; the random
spawn width and the random next spawn delay are oracle parameters `w`, `d`. -/

structure TRState where
  present_runner : Runner
  past_runner : Runner
  score : ℚ
  game_over : Bool
  slow_mo_active : Bool
  time_factor : ℚ
  present_obstacles : List Obstacle
  past_obstacles : List Obstacle
  obstacle_timer : ℚ
  obstacle_spawn_delay : ℚ

/-- The obstacle-spawning block of `Game.update`: once the timer (already
incremented by the time factor) reaches the spawn delay, reset the timer,
draw a fresh random delay `d`, and append one obstacle of the same random
width `w`, height `20` and starting `x = SCREEN_WIDTH` to each timeline. -/
def spawnStage (w d timer delay : ℚ) (pres past : List Obstacle) :
    ℚ × ℚ × List Obstacle × List Obstacle :=
  if delay ≤ timer then
    (0, d, pres ++ [⟨SCREEN_WIDTH, TIMELINE_HEIGHT - 60, w, 20⟩],
      past ++ [⟨SCREEN_WIDTH, SCREEN_HEIGHT - 60, w, 20⟩])
  else (timer, delay, pres, past)

/-- The obstacle-movement-and-culling loop: advance every obstacle by the
time factor and drop the ones that left the screen (`x + width < 0`). -/
def moveAndCull (tf : ℚ) (obs : List Obstacle) : List Obstacle :=
  (obs.map (Obstacle.update tf)).filter (fun o => !decide (o.x + o.width < 0))

/-- The body of `Game.update` while playing. -/
def trStepRun (w d : ℚ) (st : TRState) : TRState :=
  let ck := check_slow_motion st.present_obstacles st.past_obstacles
    st.present_runner st.past_runner
  let pr := Runner.update (TIMELINE_HEIGHT - 60) ck.2 st.present_runner
  let pa := Runner.update (SCREEN_HEIGHT - 60) ck.2 st.past_runner
  let sp := spawnStage w d (st.obstacle_timer + ck.2) st.obstacle_spawn_delay
    st.present_obstacles st.past_obstacles
  let pres := moveAndCull ck.2 sp.2.2.1
  let pastl := moveAndCull ck.2 sp.2.2.2
  let go := pres.any (fun o => colliderect pr.get_rect o.get_rect) ||
    pastl.any (fun o => colliderect pa.get_rect o.get_rect)
  { present_runner := pr, past_runner := pa,
    score := if go then st.score else st.score + ck.2,
    game_over := go, slow_mo_active := ck.1, time_factor := ck.2,
    present_obstacles := pres, past_obstacles := pastl,
    obstacle_timer := sp.1, obstacle_spawn_delay := sp.2.1 }

/-- One call of `Game.update` (the intro screen is out of scope; on
`game_over` the method returns immediately). -/
def trStep (w d : ℚ) (st : TRState) : TRState :=
  if st.game_over then st else trStepRun w d st

end TimeRunners

namespace ShadowTag

/-! ### Constants of `shadow_tag.py` -/

def SCREEN_WIDTH : ℚ := 800
def SCREEN_HEIGHT : ℚ := 600
def PLAYER_SPEED : ℚ := 5
def SHADOW_SPEED : ℚ := 2
def INITIAL_LIGHT_RADIUS : ℚ := 150
def LIGHT_SHRINK_RATE : ℚ := 1/20
def MIN_LIGHT_RADIUS : ℚ := 30
def SHADOW_SIZE : ℚ := 15
def PLAYER_SIZE : ℚ := 10

/-- The four arrow keys polled each frame. -/
structure Keys where
  left : Bool
  right : Bool
  up : Bool
  down : Bool

/-! ### Player

Color and the movement-sound timer are presentational and omitted. -/

structure Player where
  x : ℚ
  y : ℚ
  radius : ℚ
  light_radius : ℚ
  speed : ℚ
deriving DecidableEq

def Player.init (x y : ℚ) : Player :=
  ⟨x, y, PLAYER_SIZE, INITIAL_LIGHT_RADIUS, PLAYER_SPEED⟩

/-- The movement half of `Player.update(keys)`: the four sequential,
individually clamped moves. -/
def Player.move (keys : Keys) (p : Player) : Player :=
  let p1 := if keys.left ∧ 0 < p.x - p.radius then { p with x := p.x - p.speed } else p
  let p2 := if keys.right ∧ p1.x + p1.radius < SCREEN_WIDTH then
    { p1 with x := p1.x + p1.speed } else p1
  let p3 := if keys.up ∧ 0 < p2.y - p2.radius then { p2 with y := p2.y - p2.speed } else p2
  if keys.down ∧ p3.y + p3.radius < SCREEN_HEIGHT then { p3 with y := p3.y + p3.speed } else p3

/-- `Player.update(keys)`: the movement, then the light radius shrinks by
`LIGHT_SHRINK_RATE`, floored at `MIN_LIGHT_RADIUS`. -/
def Player.update (keys : Keys) (p : Player) : Player :=
  let p4 := Player.move keys p
  { p4 with light_radius := max MIN_LIGHT_RADIUS (p4.light_radius - LIGHT_SHRINK_RATE) }

/-! ### Shadows

The wander `direction` and `change_direction_counter` only feed the
random/trigonometric movement, which is abstracted by an oracle below, so
they are not tracked. -/

structure Shadow where
  x : ℚ
  y : ℚ
  radius : ℚ
  tagged : Bool
  fade_out : ℚ
deriving DecidableEq

def Shadow.init (x y : ℚ) : Shadow := ⟨x, y, SHADOW_SIZE, false, 255⟩

/-- `Player.collides_with(shadow)`: Euclidean distance between the centers
strictly below the sum of the radii. -/
def Player.collides_with (p : Player) (s : Shadow) : Prop :=
  Real.sqrt (((p.x - s.x : ℚ) : ℝ) ^ 2 + ((p.y - s.y : ℚ) : ℝ) ^ 2)
    < ((p.radius + s.radius : ℚ) : ℝ)

/-- Decidable form of `Player.collides_with` by squaring, used to run the
update; the equivalence with the square-root form is proved below. -/
def Player.collidesB (p : Player) (s : Shadow) : Bool :=
  decide ((p.x - s.x) ^ 2 + (p.y - s.y) ^ 2 < (p.radius + s.radius) ^ 2)

/-- `Shadow.update(player)`: a tagged shadow only fades out (floored at 0)
and never moves or loses its tag; an untagged shadow moves by the
wander/flee rules, whose `random.uniform` draws and trigonometry are
abstracted by the movement oracle `mv` yielding the new position. -/
def Shadow.update (mv : Shadow → Player → ℚ × ℚ) (p : Player) (s : Shadow) : Shadow :=
  if s.tagged then { s with fade_out := max 0 (s.fade_out - 15) }
  else { s with x := (mv s p).1, y := (mv s p).2 }

/-! ### The game (`Game.update`, `Game.reset`)

The timer, sounds and the light-warning flag are presentational/audio and
omitted; the random spawn positions of `Game.reset` are an oracle list. -/

structure GState where
  player : Player
  shadows : List Shadow
  score : ℕ
  game_over : Bool
  win : Bool

/-- The body of the per-shadow loop in `Game.update`: update the shadow,
then tag it (and award 100 points, signalled by the returned flag) if it is
untagged and touching the player. -/
def tagStep (mv : Shadow → Player → ℚ × ℚ) (p : Player) (s : Shadow) : Shadow × Bool :=
  if !(Shadow.update mv p s).tagged && Player.collidesB p (Shadow.update mv p s) then
    ({ Shadow.update mv p s with tagged := true }, true)
  else (Shadow.update mv p s, false)

/-- Number of tagged shadows in a list. -/
def countTagged (l : List Shadow) : ℕ := (l.filter (fun s => s.tagged)).length

/-- The body of `Game.update` while playing: player movement and light
decay, the shadow loop with tagging and scoring, the win check (no active
shadow left), and the light-depletion game-over check. -/
def gameRun (mv : Shadow → Player → ℚ × ℚ) (keys : Keys) (st : GState) : GState :=
  let p := Player.update keys st.player
  let shadows := st.shadows.map (fun s => (tagStep mv p s).1)
  let newly := (st.shadows.filter (fun s => (tagStep mv p s).2)).length
  let active := (shadows.filter (fun s => !s.tagged)).length
  { player := p, shadows := shadows,
    score := st.score + 100 * newly,
    game_over := if p.light_radius ≤ MIN_LIGHT_RADIUS then true else st.game_over,
    win := if active = 0 then true else st.win }

/-- One call of `Game.update`: early return when the run has ended,
otherwise the playing body `gameRun`. -/
def gameUpdate (mv : Shadow → Player → ℚ × ℚ) (keys : Keys) (st : GState) : GState :=
  if st.game_over || st.win then st else gameRun mv keys st

/-- `Game.reset` restricted to the modelled fields: a fresh centered player,
untagged shadows at the oracle-chosen positions, score 0, flags cleared. -/
def mkReset (positions : List (ℚ × ℚ)) : GState :=
  { player := Player.init (SCREEN_WIDTH / 2) (SCREEN_HEIGHT / 2),
    shadows := positions.map (fun q => Shadow.init q.1 q.2),
    score := 0, game_over := false, win := false }

/-- The score/win invariant maintained by `Game.update` from `Game.reset`:
the score is 100 per tagged shadow, and the win flag holds exactly when
every shadow is tagged. -/
def ScoreWinInv (st : GState) : Prop :=
  st.score = 100 * countTagged st.shadows ∧
    (st.win = true ↔ ∀ s ∈ st.shadows, s.tagged = true)

/-- Player state after `k` frames from `Game.reset`, with per-frame key
states given by the stream `ks`. -/
def playerAfter (ks : ℕ → Keys) : ℕ → Player
  | 0 => Player.init (SCREEN_WIDTH / 2) (SCREEN_HEIGHT / 2)
  | k + 1 => Player.update (ks k) (playerAfter ks k)

end ShadowTag

section BufferLemmas

open TimeRunners

lemma dequeAppend_full (buf : List Bool) (v : Bool) (m : ℕ) (h : buf.length = m) :
    dequeAppend m buf v = buf.drop 1 ++ [v] := by
  unfold dequeAppend
  rw [h]
  simp

/-- Closed form for the buffer contents: the pre-fill followed by the inputs
so far, with the first `k` entries dropped. -/
lemma historyAfter_eq (u : ℕ → Bool) (k : ℕ) :
    historyAfter u k
      = (List.replicate (DELAY_FRAMES + 1) false ++ (List.range k).map u).drop k := by
  induction k with
  | zero => simp [historyAfter, initHistory]
  | succ k ih =>
    have hlen : (historyAfter u k).length = DELAY_FRAMES + 1 := by
      rw [ih]
      simp
    have hrange : (List.range (k + 1)).map u = (List.range k).map u ++ [u k] := by
      rw [List.range_succ, List.map_append]
      simp
    rw [historyAfter, dequeAppend_full _ _ _ hlen, ih, hrange, List.drop_drop,
      ← List.append_assoc]
    have hle : k + 1 ≤ (List.replicate (DELAY_FRAMES + 1) false ++ (List.range k).map u).length := by
      simp
      omega
    rw [List.drop_append_of_le_length hle]

lemma historyAfter_length (u : ℕ → Bool) (k : ℕ) :
    (historyAfter u k).length = DELAY_FRAMES + 1 := by
  rw [historyAfter_eq]
  simp

lemma delayedAction_eq_getElem (u : ℕ → Bool) (k : ℕ) :
    delayedAction u k
      = ((List.replicate (DELAY_FRAMES + 1) false ++ (List.range (k + 1)).map u)[k + 1]?).getD false := by
  rw [delayedAction, historyAfter_eq, List.headD_eq_head?, List.head?_drop]

end BufferLemmas

/-- C1: for every sequence of per-frame boolean jump inputs, the delayed
value read on the `k`-th frame (`action_history[0]` after appending that
frame's input) equals the value pushed on call `k − C` for `k ≥ C` and
`false` for `k < C`, where `C = DELAY_FRAMES = 120` (frames numbered from
0). -/
theorem claim_C1_replay_delay (u : ℕ → Bool) (k : ℕ) :
    (k < TimeRunners.DELAY_FRAMES → TimeRunners.delayedAction u k = false) ∧
    (TimeRunners.DELAY_FRAMES ≤ k →
      TimeRunners.delayedAction u k = u (k - TimeRunners.DELAY_FRAMES)) := by
  constructor
  · intro hk
    rw [delayedAction_eq_getElem, List.getElem?_append_left (by simp; omega),
      List.getElem?_replicate_of_lt (by omega)]
    rfl
  · intro hk
    rw [delayedAction_eq_getElem, List.getElem?_append_right (by simp; omega)]
    rw [List.length_replicate, List.getElem?_map, List.getElem?_range (by omega)]
    simp only [Option.map_some', Option.getD_some]
    congr 1

/-- Witness for C1 at concrete inputs: with `u i = decide (i % 3 = 0)`, the
value read on frame 7 is `false`, and the value read on frame 125 is the
input of frame 5. -/
theorem claim_C1_replay_delay_witness :
    TimeRunners.delayedAction (fun i => decide (i % 3 = 0)) 7 = false ∧
    TimeRunners.delayedAction (fun i => decide (i % 3 = 0)) 125 = decide (5 % 3 = 0) := by
  refine ⟨(claim_C1_replay_delay (fun i => decide (i % 3 = 0)) 7).1 (by decide), ?_⟩
  have h := (claim_C1_replay_delay (fun i => decide (i % 3 = 0)) 125).2 (by decide)
  simpa [TimeRunners.DELAY_FRAMES, TimeRunners.FPS] using h

/-- C2 counterexample: the buffer created by `Game.reset` does not hold 120
elements — it is pre-filled with `DELAY_FRAMES + 1 = 121` entries. -/
theorem claim_C2_length_cex : ¬ TimeRunners.initHistory.length = 120 := by decide

/-- C2 (amended): the replay buffer holds exactly `DELAY_FRAMES + 1 = 121`
elements at all times: it is created with 121 entries pre-filled with
`false`, and every per-frame push on a full buffer leaves its length equal
to 121. -/
theorem claim_C2_buffer_length :
    TimeRunners.initHistory = List.replicate (TimeRunners.DELAY_FRAMES + 1) false ∧
    TimeRunners.initHistory.length = TimeRunners.DELAY_FRAMES + 1 ∧
    TimeRunners.DELAY_FRAMES + 1 = 121 ∧
    (∀ (u : ℕ → Bool) (k : ℕ),
      (TimeRunners.historyAfter u k).length = TimeRunners.DELAY_FRAMES + 1) ∧
    (∀ (buf : List Bool) (v : Bool), buf.length = TimeRunners.DELAY_FRAMES + 1 →
      (TimeRunners.dequeAppend (TimeRunners.DELAY_FRAMES + 1) buf v).length
        = TimeRunners.DELAY_FRAMES + 1) := by
  refine ⟨rfl, by simp [TimeRunners.initHistory], by decide, historyAfter_length, ?_⟩
  intro buf v h
  rw [dequeAppend_full buf v _ h]
  simp [h]

/-- Witness for C2 (amended): one push of `true` onto the freshly created
buffer keeps the length at `DELAY_FRAMES + 1`. -/
theorem claim_C2_buffer_length_witness :
    (TimeRunners.dequeAppend (TimeRunners.DELAY_FRAMES + 1) TimeRunners.initHistory true).length
      = TimeRunners.DELAY_FRAMES + 1 :=
  claim_C2_buffer_length.2.2.2.2 TimeRunners.initHistory true (by decide)

/-- C3: the code's buffer mechanism (append the new input, then read the
front element) with capacity 3, pre-filled `[false, false, false]`, on the
push sequence `[true, false, true, true]` yields the output sequence
`[false, false, true, false]` and the final buffer `[false, true, true]`. -/
theorem claim_C3_capacity3_scenario :
    TimeRunners.runBuf 3 [false, false, false] [true, false, true, true]
      = ([false, false, true, false], [false, true, true]) := by decide

section RunnerLemmas

open TimeRunners

lemma update_clamp (g tf : ℚ) (r : Runner)
    (h : g < r.y + (r.vel_y + GRAVITY * tf) * tf + r.height) :
    Runner.update g tf r = { r with y := g - r.height, vel_y := 0, is_jumping := false } := by
  unfold Runner.update
  rw [if_pos (by linarith)]

lemma update_no_clamp (g tf : ℚ) (r : Runner)
    (h : r.y + (r.vel_y + GRAVITY * tf) * tf + r.height ≤ g) :
    Runner.update g tf r
      = { r with
            y := r.y + (r.vel_y + GRAVITY * tf) * tf
            vel_y := r.vel_y + GRAVITY * tf } := by
  unfold Runner.update
  rw [if_neg (by linarith)]

lemma jumpOffset_succ (k : ℕ) : jumpOffset (k + 1) = jumpOffset k + (k + 1) - 15 := by
  unfold jumpOffset
  push_cast
  ring

lemma jumpOffset_nonpos (j : ℕ) (h : j ≤ 29) : jumpOffset j ≤ 0 := by
  have h1 : (j : ℚ) ≤ 29 := by exact_mod_cast h
  have h2 : (0 : ℚ) ≤ j := Nat.cast_nonneg j
  unfold jumpOffset
  nlinarith

/-- The first 29 ticks of a jump from the ground at `time_factor = 1` never
trigger the ground clamp: the runner follows the discrete parabola
`jumpOffset`. -/
lemma flight (r : Runner) (g : ℚ) (hg : r.y + r.height = g) (hj : r.is_jumping = false) :
    ∀ k, k ≤ 29 → (Runner.update g 1)^[k] r.jump
      = { r with y := r.y + jumpOffset k, vel_y := -15 + k, is_jumping := true } := by
  intro k
  induction k with
  | zero =>
    intro _
    simp [Runner.jump, hj, jumpOffset, JUMP_STRENGTH]
  | succ k ih =>
    intro hk
    have hofs := jumpOffset_nonpos (k + 1) hk
    rw [Function.iterate_succ_apply', ih (by omega)]
    rw [update_no_clamp _ _ _ (by
      simp only [GRAVITY]
      rw [jumpOffset_succ] at hofs
      push_cast
      linarith)]
    simp only [GRAVITY, Runner.mk.injEq, eq_self_iff_true, true_and, and_true]
    constructor
    · rw [jumpOffset_succ]
      ring
    · push_cast
      ring

end RunnerLemmas

/-- C4 counterexample: for the grounded runner at `y = 200` with
`height = 40` on the ground line `ground_y = 240`, one jump impulse followed
by 15 ticks of `Runner.update` with gravity 1 and time factor 1 leaves the
velocity at 0 but the vertical position at 95, which is 105 px above the
pre-jump height 200 — not equal to it as the claim states. -/
theorem claim_C4_position_cex :
    ((TimeRunners.Runner.update 240 1)^[15]
        (TimeRunners.Runner.jump ⟨100, 200, 20, 40, 0, false, true⟩)).vel_y = 0 ∧
    ((TimeRunners.Runner.update 240 1)^[15]
        (TimeRunners.Runner.jump ⟨100, 200, 20, 40, 0, false, true⟩)).y = 95 ∧
    ¬ ((TimeRunners.Runner.update 240 1)^[15]
        (TimeRunners.Runner.jump ⟨100, 200, 20, 40, 0, false, true⟩)).y = 200 := by
  have h := flight ⟨100, 200, 20, 40, 0, false, true⟩ 240 (by norm_num) rfl 15 (by omega)
  refine ⟨?_, ?_, ?_⟩ <;> rw [h] <;> norm_num [TimeRunners.jumpOffset]

/-- C4 (amended): for a Runner on the ground with vertical velocity 0,
applying one jump impulse (`vel_y` set to −15) and running `Runner.update`
with gravity 1 and time factor 1 with no further input yields, after 15
ticks, a non-negative (in fact zero) vertical velocity with the runner
still 105 px above the pre-jump height; the vertical position returns to
the pre-jump height after 30 ticks, when the ground clamp fires. -/
theorem claim_C4_jump_arc (r : TimeRunners.Runner) (g : ℚ)
    (hg : r.y + r.height = g) (hv : r.vel_y = 0) (hj : r.is_jumping = false) :
    0 ≤ ((TimeRunners.Runner.update g 1)^[15] r.jump).vel_y ∧
    ((TimeRunners.Runner.update g 1)^[15] r.jump).y = r.y - 105 ∧
    ((TimeRunners.Runner.update g 1)^[30] r.jump).y = r.y ∧
    ((TimeRunners.Runner.update g 1)^[30] r.jump).vel_y = 0 := by
  have h15 := flight r g hg hj 15 (by omega)
  have h29 := flight r g hg hj 29 (by omega)
  have h290 : TimeRunners.jumpOffset 29 = 0 := by norm_num [TimeRunners.jumpOffset]
  have h150 : TimeRunners.jumpOffset 15 = -105 := by norm_num [TimeRunners.jumpOffset]
  have h30 : (TimeRunners.Runner.update g 1)^[30] r.jump
      = { r with y := g - r.height, vel_y := 0, is_jumping := false } := by
    rw [show 30 = 29 + 1 by rfl, Function.iterate_succ_apply', h29]
    rw [update_clamp _ _ _ (by
      simp only [TimeRunners.GRAVITY]
      push_cast
      linarith [hg, h290])]
  refine ⟨?_, ?_, ?_, ?_⟩
  · rw [h15]; norm_num
  · rw [h15]
    show r.y + TimeRunners.jumpOffset 15 = r.y - 105
    rw [h150]
    ring
  · rw [h30]
    show g - r.height = r.y
    linarith
  · rw [h30]

/-- Witness for C4 (amended) at the concrete grounded runner of the
counterexample configuration. -/
theorem claim_C4_jump_arc_witness :
    0 ≤ ((TimeRunners.Runner.update 240 1)^[15]
        (TimeRunners.Runner.jump ⟨100, 200, 20, 40, 0, false, true⟩)).vel_y ∧
    ((TimeRunners.Runner.update 240 1)^[30]
        (TimeRunners.Runner.jump ⟨100, 200, 20, 40, 0, false, true⟩)).y = 200 := by
  have h := claim_C4_jump_arc ⟨100, 200, 20, 40, 0, false, true⟩ 240
    (by norm_num) rfl rfl
  exact ⟨h.1, h.2.2.1⟩

/-- C5: after `Runner.update(ground_y, time_factor)` returns, the runner's
bottom edge `y + height` never exceeds `ground_y`; and whenever the ground
clamp fires (the freshly integrated position would dip below the ground
line), the position is clamped to the ground line, the vertical velocity is
set to 0 and the airborne flag is cleared. -/
theorem claim_C5_ground_clamp (r : TimeRunners.Runner) (g tf : ℚ) :
    (TimeRunners.Runner.update g tf r).y + (TimeRunners.Runner.update g tf r).height ≤ g ∧
    (g < r.y + (r.vel_y + TimeRunners.GRAVITY * tf) * tf + r.height →
      (TimeRunners.Runner.update g tf r).vel_y = 0 ∧
      (TimeRunners.Runner.update g tf r).is_jumping = false ∧
      (TimeRunners.Runner.update g tf r).y = g - r.height) := by
  by_cases h : g < r.y + (r.vel_y + TimeRunners.GRAVITY * tf) * tf + r.height
  · rw [update_clamp _ _ _ h]
    refine ⟨?_, fun _ => ⟨rfl, rfl, rfl⟩⟩
    show g - r.height + r.height ≤ g
    linarith
  · rw [update_no_clamp _ _ _ (by linarith)]
    exact ⟨by simpa using not_lt.mp h, fun hc => absurd hc h⟩

/-- Witness for C5: a concrete falling runner for which the ground clamp
fires, landing exactly on the ground line with zeroed velocity. -/
theorem claim_C5_ground_clamp_witness :
    (TimeRunners.Runner.update 240 1 ⟨0, 230, 20, 40, 5, true, true⟩).vel_y = 0 ∧
    (TimeRunners.Runner.update 240 1 ⟨0, 230, 20, 40, 5, true, true⟩).is_jumping = false ∧
    (TimeRunners.Runner.update 240 1 ⟨0, 230, 20, 40, 5, true, true⟩).y = 240 - 40 :=
  (claim_C5_ground_clamp ⟨0, 230, 20, 40, 5, true, true⟩ 240 1).2
    (by norm_num [TimeRunners.GRAVITY])

section SlowMotionLemmas

open TimeRunners

lemma minD_isSome (d : ℚ) (rest : List ℚ) : (minD (d :: rest)).isSome := by
  unfold minD
  cases minD rest <;> simp

lemma minD_spec : ∀ (l : List ℚ) (m : ℚ), minD l = some m → m ∈ l ∧ ∀ x ∈ l, m ≤ x := by
  intro l
  induction l with
  | nil => intro m h; simp [minD] at h
  | cons d rest ih =>
    intro m h
    unfold minD at h
    cases hr : minD rest with
    | none =>
      rw [hr] at h
      have hrest : rest = [] := by
        cases rest with
        | nil => rfl
        | cons a t => have := minD_isSome a t; rw [hr] at this; simp at this
      cases h
      subst hrest
      exact ⟨by simp, by simp⟩
    | some m' =>
      rw [hr] at h
      cases h
      obtain ⟨hmem, hle⟩ := ih m' hr
      constructor
      · rcases le_total d m' with hd | hd
        · simp [min_eq_left hd]
        · rw [min_eq_right hd]
          exact List.mem_cons_of_mem d hmem
      · intro x hx
        rcases List.mem_cons.mp hx with hx | hx
        · subst hx; exact min_le_left _ _
        · exact le_trans (min_le_right _ _) (hle x hx)

lemma minD_lt_iff (l : List ℚ) (c : ℚ) :
    (∃ m, minD l = some m ∧ m < c) ↔ ∃ d ∈ l, d < c := by
  constructor
  · rintro ⟨m, hm, hmc⟩
    exact ⟨m, (minD_spec l m hm).1, hmc⟩
  · rintro ⟨d, hd, hdc⟩
    have hne : l ≠ [] := by rintro rfl; simp at hd
    obtain ⟨a, t, rfl⟩ := List.exists_cons_of_ne_nil hne
    obtain ⟨m, hm⟩ := Option.isSome_iff_exists.mp (minD_isSome a t)
    exact ⟨m, hm, lt_of_le_of_lt ((minD_spec _ m hm).2 d hd) hdc⟩

lemma mem_aheadDistances (r : Runner) (obs : List Obstacle) (d : ℚ) :
    d ∈ aheadDistances r obs ↔ ∃ o ∈ obs, r.x < o.x ∧ o.x - (r.x + r.width) = d := by
  simp only [aheadDistances, List.mem_map, List.mem_filter, decide_eq_true_eq]
  tauto

/-- `nearHazard` is exactly "some computed distance is below the slow-mo
threshold". -/
lemma nearHazard_iff (pres past : List Obstacle) (pr pa : Runner) :
    nearHazard pres past pr pa ↔
      ∃ d ∈ aheadDistances pr pres ++ aheadDistances pa past, d < SLOW_MO_DISTANCE := by
  unfold nearHazard
  simp only [List.mem_append]
  constructor
  · rintro (⟨o, ho, hx, hd⟩ | ⟨o, ho, hx, hd⟩)
    · exact ⟨o.x - (pr.x + pr.width), Or.inl ((mem_aheadDistances pr pres _).mpr ⟨o, ho, hx, rfl⟩), hd⟩
    · exact ⟨o.x - (pa.x + pa.width), Or.inr ((mem_aheadDistances pa past _).mpr ⟨o, ho, hx, rfl⟩), hd⟩
  · rintro ⟨d, hd | hd, hdc⟩
    · obtain ⟨o, ho, hx, rfl⟩ := (mem_aheadDistances pr pres d).mp hd
      exact Or.inl ⟨o, ho, hx, hdc⟩
    · obtain ⟨o, ho, hx, rfl⟩ := (mem_aheadDistances pa past d).mp hd
      exact Or.inr ⟨o, ho, hx, hdc⟩

lemma mem_moveAndCull (tf : ℚ) (l : List Obstacle) (o : Obstacle) :
    o ∈ moveAndCull tf l → ∃ o0 ∈ l, o = Obstacle.update tf o0 := by
  intro h
  simp only [moveAndCull, List.mem_filter, List.mem_map] at h
  obtain ⟨⟨o0, ho0, rfl⟩, _⟩ := h
  exact ⟨o0, ho0, rfl⟩

end SlowMotionLemmas

/-- C7: after `Game.check_slow_motion` runs, if no obstacle ahead of either
runner is within `SLOW_MO_DISTANCE` then `slow_mo_active` is `false` and
`time_factor` is `1`; otherwise `slow_mo_active` is `true` and
`time_factor` is strictly less than `1`.  Moreover `Game.update` applies
that factor to the per-tick deltas of the frame: both runner updates
(gravity and position), the score increment, and each obstacle's movement. -/
theorem claim_C7_slow_motion :
    (∀ pres past pr pa, ¬ TimeRunners.nearHazard pres past pr pa →
      TimeRunners.check_slow_motion pres past pr pa = (false, 1)) ∧
    (∀ pres past pr pa, TimeRunners.nearHazard pres past pr pa →
      (TimeRunners.check_slow_motion pres past pr pa).1 = true ∧
      (TimeRunners.check_slow_motion pres past pr pa).2 < 1) ∧
    (∀ w d st, st.game_over = false →
      (TimeRunners.trStep w d st).slow_mo_active
        = (TimeRunners.check_slow_motion st.present_obstacles st.past_obstacles
            st.present_runner st.past_runner).1 ∧
      (TimeRunners.trStep w d st).time_factor
        = (TimeRunners.check_slow_motion st.present_obstacles st.past_obstacles
            st.present_runner st.past_runner).2 ∧
      (TimeRunners.trStep w d st).present_runner
        = TimeRunners.Runner.update (TimeRunners.TIMELINE_HEIGHT - 60)
            (TimeRunners.trStep w d st).time_factor st.present_runner ∧
      (TimeRunners.trStep w d st).past_runner
        = TimeRunners.Runner.update (TimeRunners.SCREEN_HEIGHT - 60)
            (TimeRunners.trStep w d st).time_factor st.past_runner ∧
      ((TimeRunners.trStep w d st).game_over = false →
        (TimeRunners.trStep w d st).score
          = st.score + (TimeRunners.trStep w d st).time_factor) ∧
      (∀ o ∈ (TimeRunners.trStep w d st).present_obstacles
          ++ (TimeRunners.trStep w d st).past_obstacles,
        ∃ o0, o = TimeRunners.Obstacle.update (TimeRunners.trStep w d st).time_factor o0)) := by
  refine ⟨?_, ?_, ?_⟩
  · intro pres past pr pa hfar
    rw [nearHazard_iff, ← minD_lt_iff] at hfar
    push_neg at hfar
    unfold TimeRunners.check_slow_motion
    cases hm : TimeRunners.minD
        (TimeRunners.aheadDistances pr pres ++ TimeRunners.aheadDistances pa past) with
    | none => rfl
    | some m => simp [not_lt.mpr (hfar m hm)]
  · intro pres past pr pa hnear
    rw [nearHazard_iff, ← minD_lt_iff] at hnear
    obtain ⟨m, hm, hmc⟩ := hnear
    have hccs : TimeRunners.check_slow_motion pres past pr pa
        = (true, TimeRunners.SLOW_MO_FACTOR
            + (1 - TimeRunners.SLOW_MO_FACTOR) * (m / TimeRunners.SLOW_MO_DISTANCE)) := by
      unfold TimeRunners.check_slow_motion
      rw [hm]
      simp [hmc]
    rw [hccs]
    refine ⟨rfl, ?_⟩
    show TimeRunners.SLOW_MO_FACTOR
      + (1 - TimeRunners.SLOW_MO_FACTOR) * (m / TimeRunners.SLOW_MO_DISTANCE) < 1
    have hdiv : m / TimeRunners.SLOW_MO_DISTANCE < 1 := by
      rw [div_lt_one (by norm_num [TimeRunners.SLOW_MO_DISTANCE])]
      exact hmc
    simp only [TimeRunners.SLOW_MO_FACTOR]
    linarith
  · intro w d st h
    have hstep : TimeRunners.trStep w d st = TimeRunners.trStepRun w d st := by
      unfold TimeRunners.trStep
      rw [h]
      simp
    rw [hstep]
    refine ⟨rfl, rfl, rfl, rfl, ?_, ?_⟩
    · intro hgo
      have hsc : (TimeRunners.trStepRun w d st).score
          = if (TimeRunners.trStepRun w d st).game_over then st.score
            else st.score + (TimeRunners.trStepRun w d st).time_factor := rfl
      rw [hsc, hgo]
      simp
    · intro o ho
      rcases List.mem_append.mp ho with ho | ho
      · obtain ⟨o0, _, rfl⟩ := mem_moveAndCull _ _ _ ho
        exact ⟨o0, rfl⟩
      · obtain ⟨o0, _, rfl⟩ := mem_moveAndCull _ _ _ ho
        exact ⟨o0, rfl⟩

/-- Witness for C7: a single obstacle 50 px ahead of the present runner
activates slow motion with a factor strictly below 1; with no obstacles the
factor is exactly 1; and one full `Game.update` step from a hazard-free
state leaves the time factor at 1 and advances the score by it. -/
theorem claim_C7_slow_motion_witness :
    ((TimeRunners.check_slow_motion [⟨170, 240, 30, 20⟩] [] { x := 100, y := 200 } { x := 100, y := 500 }).1 = true ∧
      (TimeRunners.check_slow_motion [⟨170, 240, 30, 20⟩] [] { x := 100, y := 200 } { x := 100, y := 500 }).2 < 1) ∧
    TimeRunners.check_slow_motion [] [] { x := 100, y := 200 } { x := 100, y := 500 } = (false, 1) := by
  constructor
  · exact claim_C7_slow_motion.2.1 [⟨170, 240, 30, 20⟩] [] { x := 100, y := 200 } { x := 100, y := 500 }
      (Or.inl ⟨⟨170, 240, 30, 20⟩, by simp, by norm_num,
        by norm_num [TimeRunners.SLOW_MO_DISTANCE]⟩)
  · exact claim_C7_slow_motion.1 [] [] { x := 100, y := 200 } { x := 100, y := 500 }
      (by rintro (⟨o, ho, _⟩ | ⟨o, ho, _⟩) <;> simp at ho)

/-- C10: every obstacle spawn appends exactly one obstacle to each timeline
in the same tick, and the two obstacles have equal (random) width, equal
height 20 and the same starting `x = SCREEN_WIDTH`; when the timer has not
reached the spawn delay, neither timeline receives an obstacle. -/
theorem claim_C10_twin_spawn (w d timer delay : ℚ)
    (pres past : List TimeRunners.Obstacle) :
    (delay ≤ timer →
      ∃ op oq,
        TimeRunners.spawnStage w d timer delay pres past = (0, d, pres ++ [op], past ++ [oq]) ∧
        op.width = oq.width ∧ op.height = 20 ∧ oq.height = 20 ∧
        op.x = TimeRunners.SCREEN_WIDTH ∧ oq.x = TimeRunners.SCREEN_WIDTH ∧
        (TimeRunners.spawnStage w d timer delay pres past).2.2.1.length = pres.length + 1 ∧
        (TimeRunners.spawnStage w d timer delay pres past).2.2.2.length = past.length + 1) ∧
    (¬ delay ≤ timer →
      TimeRunners.spawnStage w d timer delay pres past = (timer, delay, pres, past)) := by
  constructor
  · intro h
    refine ⟨⟨TimeRunners.SCREEN_WIDTH, TimeRunners.TIMELINE_HEIGHT - 60, w, 20⟩,
      ⟨TimeRunners.SCREEN_WIDTH, TimeRunners.SCREEN_HEIGHT - 60, w, 20⟩,
      ?_, rfl, rfl, rfl, rfl, rfl, ?_, ?_⟩ <;>
      simp [TimeRunners.spawnStage, h]
  · intro h
    simp [TimeRunners.spawnStage, h]

/-- Witness for C10: a spawn that fires (timer 60 ≥ delay 60) extends both
(empty) timelines to length one. -/
theorem claim_C10_twin_spawn_witness :
    (TimeRunners.spawnStage 50 70 60 60 ([] : List TimeRunners.Obstacle) []).2.2.1.length
        = 0 + 1 ∧
    (TimeRunners.spawnStage 50 70 60 60 ([] : List TimeRunners.Obstacle) []).2.2.2.length
        = 0 + 1 := by
  obtain ⟨op, oq, _, _, _, _, _, _, hl1, hl2⟩ :=
    (claim_C10_twin_spawn 50 70 60 60 [] []).1 (by norm_num)
  exact ⟨by simpa using hl1, by simpa using hl2⟩

/-- C8 counterexample: a runner whose box `[100,120] × [200,240]` does not
overlap the obstacle's box `[110,140] × [245,265]` (they are 5 px apart
vertically) is nevertheless reported as colliding, because
`Obstacle.get_rect` extends the collision box 10 px upward for the spikes. -/
theorem claim_C8_rect_cex :
    TimeRunners.colliderect
        (TimeRunners.Runner.get_rect { x := 100, y := 200 })
        (TimeRunners.Obstacle.get_rect ⟨110, 245, 30, 20⟩) = true ∧
    ¬ TimeRunners.boxOverlap 100 200 20 40 110 245 30 20 := by
  constructor
  · norm_num [TimeRunners.colliderect, TimeRunners.Runner.get_rect,
      TimeRunners.Obstacle.get_rect]
  · intro h
    have := h.2.2.2
    norm_num at this

/-- C8 (amended): in Time Runners, two entities with overlapping bounding
boxes (position, width, height) are always reported as colliding via
`get_rect`/`colliderect`, and the test reports a collision exactly when the
runner's box overlaps the obstacle's collision box, which extends 10 px
above the obstacle (`y − 10`, `height + 10`) — so a runner within 10 px
above a non-overlapping obstacle is still reported.  In Shadow Tag,
`collides_with` reports a collision exactly when the distance between
centers is less than the sum of the two radii. -/
theorem claim_C8_collision_tests :
    (∀ (r : TimeRunners.Runner) (o : TimeRunners.Obstacle),
      TimeRunners.boxOverlap r.x r.y r.width r.height o.x o.y o.width o.height →
        TimeRunners.colliderect r.get_rect o.get_rect = true) ∧
    (∀ (r : TimeRunners.Runner) (o : TimeRunners.Obstacle),
      TimeRunners.colliderect r.get_rect o.get_rect = true ↔
        TimeRunners.boxOverlap r.x r.y r.width r.height o.x (o.y - 10) o.width (o.height + 10)) ∧
    (∀ (p : ShadowTag.Player) (s : ShadowTag.Shadow), 0 ≤ p.radius + s.radius →
      (p.collides_with s ↔
        (p.x - s.x) ^ 2 + (p.y - s.y) ^ 2 < (p.radius + s.radius) ^ 2)) := by
  refine ⟨?_, ?_, ?_⟩
  · intro r o h
    obtain ⟨h1, h2, h3, h4⟩ := h
    simp only [TimeRunners.colliderect, TimeRunners.Runner.get_rect,
      TimeRunners.Obstacle.get_rect, Bool.and_eq_true, decide_eq_true_eq]
    refine ⟨⟨⟨h1, h2⟩, by linarith⟩, by linarith⟩
  · intro r o
    simp only [TimeRunners.colliderect, TimeRunners.Runner.get_rect,
      TimeRunners.Obstacle.get_rect, TimeRunners.boxOverlap, Bool.and_eq_true,
      decide_eq_true_eq]
    tauto
  · intro p s hrad
    unfold ShadowTag.Player.collides_with
    rcases lt_or_eq_of_le hrad with hpos | hzero
    · rw [Real.sqrt_lt' (by exact_mod_cast hpos)]
      constructor
      · intro h
        have : ((p.x - s.x : ℚ) : ℝ) ^ 2 + ((p.y - s.y : ℚ) : ℝ) ^ 2
            < (((p.radius + s.radius : ℚ)) : ℝ) ^ 2 := h
        exact_mod_cast this
      · intro h
        exact_mod_cast h
    · constructor
      · intro h
        exact absurd h (not_lt.mpr (by rw [← hzero]; push_cast; exact Real.sqrt_nonneg _))
      · intro h
        have hnn : (0 : ℚ) ≤ (p.x - s.x) ^ 2 + (p.y - s.y) ^ 2 := by positivity
        rw [← hzero] at h
        norm_num at h
        linarith

/-- Witness for C8 (amended): a runner overlapping an obstacle's own box is
reported as colliding, and a concrete Shadow Tag pair at distance 5 with
radius sum 25 is in collision by the squared characterization. -/
theorem claim_C8_collision_tests_witness :
    TimeRunners.colliderect
        (TimeRunners.Runner.get_rect { x := 100, y := 200 })
        (TimeRunners.Obstacle.get_rect ⟨110, 230, 30, 20⟩) = true ∧
    (ShadowTag.Player.collides_with ⟨0, 0, 10, 150, 5⟩ ⟨3, 4, 15, false, 255⟩ ↔
      ((0 : ℚ) - 3) ^ 2 + ((0 : ℚ) - 4) ^ 2 < ((10 : ℚ) + 15) ^ 2) := by
  constructor
  · exact claim_C8_collision_tests.1 { x := 100, y := 200 } ⟨110, 230, 30, 20⟩
      (by refine ⟨?_, ?_, ?_, ?_⟩ <;> norm_num)
  · exact claim_C8_collision_tests.2.2 ⟨0, 0, 10, 150, 5⟩ ⟨3, 4, 15, false, 255⟩
      (by norm_num)

section ShadowTagLemmas

open ShadowTag

lemma ShadowTag.Player.move_light_radius (keys : Keys) (p : Player) :
    (Player.move keys p).light_radius = p.light_radius := by
  simp only [Player.move]
  split_ifs <;> rfl

lemma ShadowTag.Player.update_light_radius (keys : Keys) (p : Player) :
    (Player.update keys p).light_radius
      = max MIN_LIGHT_RADIUS (p.light_radius - LIGHT_SHRINK_RATE) := by
  show max MIN_LIGHT_RADIUS ((Player.move keys p).light_radius - LIGHT_SHRINK_RATE) = _
  rw [Player.move_light_radius]

lemma tagStep_tagged (mv : Shadow → Player → ℚ × ℚ) (p : Player) (s : Shadow) :
    ((tagStep mv p s).1).tagged = (s.tagged || (tagStep mv p s).2) := by
  have ht : (Shadow.update mv p s).tagged = s.tagged := by
    unfold Shadow.update
    split_ifs <;> rfl
  unfold tagStep
  split_ifs with hc
  · simp
  · simp [ht]

lemma tagStep_newly (mv : Shadow → Player → ℚ × ℚ) (p : Player) (s : Shadow) :
    (tagStep mv p s).2 = true → s.tagged = false := by
  have ht : (Shadow.update mv p s).tagged = s.tagged := by
    unfold Shadow.update
    split_ifs <;> rfl
  unfold tagStep
  split_ifs with hc
  · intro _
    rw [Bool.and_eq_true, Bool.not_eq_true'] at hc
    rw [← ht]
    exact hc.1
  · intro h
    simp at h

lemma countTagged_cons (s : Shadow) (l : List Shadow) :
    countTagged (s :: l) = (if s.tagged then 1 else 0) + countTagged l := by
  unfold countTagged
  rw [List.filter_cons]
  by_cases hs : s.tagged = true
  · simp [hs, Nat.add_comm]
  · simp [hs]

lemma countTagged_map_tagStep (mv : Shadow → Player → ℚ × ℚ) (p : Player) :
    ∀ l : List Shadow,
      countTagged (l.map (fun s => (tagStep mv p s).1))
        = countTagged l + (l.filter (fun s => (tagStep mv p s).2)).length := by
  intro l
  induction l with
  | nil => rfl
  | cons s l ih =>
    rw [List.map_cons, countTagged_cons, countTagged_cons, List.filter_cons, tagStep_tagged]
    by_cases hb : (tagStep mv p s).2 = true
    · have hs : s.tagged = false := tagStep_newly mv p s hb
      simp [hs, hb, ih]
      omega
    · have hb' : (tagStep mv p s).2 = false := by
        cases hbb : (tagStep mv p s).2
        · rfl
        · exact absurd hbb hb
      rw [hb']
      cases hst : s.tagged <;> simp [ih] <;> try omega

lemma active_zero_iff (l : List Shadow) :
    (l.filter (fun s => !s.tagged)).length = 0 ↔ ∀ s ∈ l, s.tagged = true := by
  rw [List.length_eq_zero, List.filter_eq_nil_iff]
  simp

end ShadowTagLemmas

/-- C6: the light radius always stays within
`[MIN_LIGHT_RADIUS, INITIAL_LIGHT_RADIUS]`: every `Player.update` shrinks it
by the constant per-tick rate floored at `MIN_LIGHT_RADIUS`; for every
number of elapsed ticks from reset the radius is between the floor and its
initial ceiling; and `Game.update` transitions to game over when the light
value reaches the floor. -/
theorem claim_C6_light_bounds :
    (∀ (keys : ShadowTag.Keys) (p : ShadowTag.Player),
      (ShadowTag.Player.update keys p).light_radius
        = max ShadowTag.MIN_LIGHT_RADIUS
            (p.light_radius - ShadowTag.LIGHT_SHRINK_RATE)) ∧
    (∀ (ks : ℕ → ShadowTag.Keys) (k : ℕ),
      ShadowTag.MIN_LIGHT_RADIUS ≤ (ShadowTag.playerAfter ks k).light_radius ∧
      (ShadowTag.playerAfter ks k).light_radius ≤ ShadowTag.INITIAL_LIGHT_RADIUS) ∧
    (∀ (mv : ShadowTag.Shadow → ShadowTag.Player → ℚ × ℚ) (keys : ShadowTag.Keys)
        (st : ShadowTag.GState), st.game_over = false → st.win = false →
      (ShadowTag.Player.update keys st.player).light_radius ≤ ShadowTag.MIN_LIGHT_RADIUS →
      (ShadowTag.gameUpdate mv keys st).game_over = true) := by
  refine ⟨ShadowTag.Player.update_light_radius, ?_, ?_⟩
  · intro ks k
    induction k with
    | zero =>
      constructor <;>
        norm_num [ShadowTag.playerAfter, ShadowTag.Player.init,
          ShadowTag.MIN_LIGHT_RADIUS, ShadowTag.INITIAL_LIGHT_RADIUS]
    | succ k ih =>
      rw [ShadowTag.playerAfter, ShadowTag.Player.update_light_radius]
      constructor
      · exact le_max_left _ _
      · apply max_le
        · norm_num [ShadowTag.MIN_LIGHT_RADIUS, ShadowTag.INITIAL_LIGHT_RADIUS]
        · have := ih.2
          simp only [ShadowTag.LIGHT_SHRINK_RATE]
          linarith
  · intro mv keys st hgo hwin hl
    have hrun : ShadowTag.gameUpdate mv keys st = ShadowTag.gameRun mv keys st := by
      unfold ShadowTag.gameUpdate
      rw [hgo, hwin]
      simp
    rw [hrun]
    have hfield : (ShadowTag.gameRun mv keys st).game_over
        = if (ShadowTag.Player.update keys st.player).light_radius
              ≤ ShadowTag.MIN_LIGHT_RADIUS then true else st.game_over := rfl
    rw [hfield, if_pos hl]

/-- Witness for C6: from a state whose light is already at the floor value
30, one `Game.update` sets the game-over flag. -/
theorem claim_C6_light_bounds_witness :
    (ShadowTag.gameUpdate (fun s _ => (s.x, s.y)) ⟨false, false, false, false⟩
        ⟨⟨400, 300, 10, 30, 5⟩, [], 0, false, false⟩).game_over = true := by
  apply claim_C6_light_bounds.2.2 _ _ _ rfl rfl
  rw [ShadowTag.Player.update_light_radius]
  show max ShadowTag.MIN_LIGHT_RADIUS ((30 : ℚ) - ShadowTag.LIGHT_SHRINK_RATE)
      ≤ ShadowTag.MIN_LIGHT_RADIUS
  apply max_le le_rfl
  norm_num [ShadowTag.MIN_LIGHT_RADIUS, ShadowTag.LIGHT_SHRINK_RATE]

/-- C9: after every `Game.update` during play, a shadow's tagged flag, once
set, is never cleared before the next reset (the tagged relation is
monotone across the update); the score equals 100 times the number of
tagged shadows; and the win flag is set exactly when every shadow is
tagged.  `Game.reset` (to any nonempty oracle-chosen spawn list)
establishes the score/win invariant, and `Game.update` preserves it. -/
theorem claim_C9_tagging_invariants (mv : ShadowTag.Shadow → ShadowTag.Player → ℚ × ℚ)
    (keys : ShadowTag.Keys) (st : ShadowTag.GState) (h : ShadowTag.ScoreWinInv st) :
    ShadowTag.ScoreWinInv (ShadowTag.gameUpdate mv keys st) ∧
    List.Forall₂ (fun s t => s.tagged = true → t.tagged = true) st.shadows
      (ShadowTag.gameUpdate mv keys st).shadows ∧
    (∀ ps : List (ℚ × ℚ), ps ≠ [] → ShadowTag.ScoreWinInv (ShadowTag.mkReset ps)) := by
  have hreset : ∀ ps : List (ℚ × ℚ), ps ≠ [] → ShadowTag.ScoreWinInv (ShadowTag.mkReset ps) := by
    intro ps hps
    constructor
    · show (0 : ℕ) = 100 * ShadowTag.countTagged
        (ps.map (fun q => ShadowTag.Shadow.init q.1 q.2))
      have hz : (ps.map (fun q => ShadowTag.Shadow.init q.1 q.2)).filter
          (fun s => s.tagged) = [] := by
        rw [List.filter_eq_nil_iff]
        intro s hs
        obtain ⟨q, _, rfl⟩ := List.mem_map.mp hs
        simp [ShadowTag.Shadow.init]
      unfold ShadowTag.countTagged
      rw [hz]
      rfl
    · apply iff_of_false
      · show ¬ ((false : Bool) = true)
        simp
      · intro hall
        obtain ⟨q, t, rfl⟩ := List.exists_cons_of_ne_nil hps
        have := hall (ShadowTag.Shadow.init q.1 q.2) (by simp [ShadowTag.mkReset])
        simp [ShadowTag.Shadow.init] at this
  by_cases hend : (st.game_over || st.win) = true
  · have hid : ShadowTag.gameUpdate mv keys st = st := by
      unfold ShadowTag.gameUpdate
      rw [if_pos hend]
    rw [hid]
    exact ⟨h, List.forall₂_same.mpr (fun s _ hs => hs), hreset⟩
  · have hrun : ShadowTag.gameUpdate mv keys st = ShadowTag.gameRun mv keys st := by
      unfold ShadowTag.gameUpdate
      rw [if_neg hend]
    have hwin_st : st.win = false := by
      cases hw : st.win
      · rfl
      · rw [Bool.or_eq_true] at hend
        exact absurd (Or.inr hw) hend
    rw [hrun]
    have hsh : (ShadowTag.gameRun mv keys st).shadows
        = st.shadows.map
            (fun s => (ShadowTag.tagStep mv (ShadowTag.Player.update keys st.player) s).1) := rfl
    have hsc : (ShadowTag.gameRun mv keys st).score
        = st.score + 100 * (st.shadows.filter
            (fun s => (ShadowTag.tagStep mv (ShadowTag.Player.update keys st.player) s).2)).length := rfl
    have hwf : (ShadowTag.gameRun mv keys st).win
        = if ((st.shadows.map
              (fun s => (ShadowTag.tagStep mv (ShadowTag.Player.update keys st.player) s).1)).filter
                (fun s => !s.tagged)).length = 0 then true else st.win := rfl
    refine ⟨⟨?_, ?_⟩, ?_, hreset⟩
    · rw [hsc, hsh, countTagged_map_tagStep, h.1]
      ring
    · rw [hwf, hsh]
      by_cases hz : ((st.shadows.map
          (fun s => (ShadowTag.tagStep mv (ShadowTag.Player.update keys st.player) s).1)).filter
            (fun s => !s.tagged)).length = 0
      · rw [if_pos hz]
        exact iff_of_true rfl ((active_zero_iff _).mp hz)
      · rw [if_neg hz, hwin_st]
        exact iff_of_false (by simp) (fun hall => hz ((active_zero_iff _).mpr hall))
    · rw [hsh, List.forall₂_map_right_iff]
      refine List.forall₂_same.mpr (fun s _ hs => ?_)
      rw [tagStep_tagged, hs, Bool.true_or]

/-- Witness for C9: one `Game.update` from a freshly reset game with a
single shadow at the origin maintains the score/win invariant. -/
theorem claim_C9_tagging_invariants_witness :
    ShadowTag.ScoreWinInv
      (ShadowTag.gameUpdate (fun s _ => (s.x, s.y)) ⟨false, false, false, false⟩
        (ShadowTag.mkReset [(0, 0)])) := by
  refine (claim_C9_tagging_invariants _ _ _ ?_).1
  constructor
  · show (0 : ℕ) = 100 * ShadowTag.countTagged _
    simp [ShadowTag.mkReset, ShadowTag.countTagged, ShadowTag.Shadow.init]
  · simp [ShadowTag.mkReset, ShadowTag.Shadow.init]
